import Mathlib

/-!
Verification of the Credence backend core: the quota/tier service
(src/services/subscriptions.ts) and the relational store (schema in
src/db/index.ts plus the five repositories in src/db/repositories).

Conventions of the embedding:
* JS timestamps (Date.now(), TIMESTAMPTZ values) are integers (milliseconds).
* JS strings are Lean strings; the JS String.prototype.startsWith check is
  modelled on the underlying character lists so that it evaluates by kernel
  reduction.
* SQL NUMERIC(20, 7) amounts, transported as strings end-to-end by the
  repositories, are modelled by their exact fixed-point value in units of
  10 ^ (-7): an Int holding amount * 10 ^ 7.  The string "2.5" is the value
  25000000, "4" is 40000000.
* A JS Map is an association list updated in place (first matching key is
  replaced, otherwise the entry is appended), which is exactly the insertion
  order semantics of Map.prototype.set.
* Fallible SQL statements return Except DbErrorKind; the three constraint
  kinds (duplicate key, referential integrity, check/range) are the three
  constructors.
-/

/- ### Quota & Tier Service (src/services/subscriptions.ts, src/types/subscription.ts) -/

inductive SubscriptionTier
  | FREE
  | PRO
  | ENTERPRISE
deriving DecidableEq

structure TierConfig where
  rateLimitTokens : Nat
  rateLimitWindowMs : Int
  allowedEndpoints : List String
deriving DecidableEq

/-- TIER_CONFIGS from src/services/subscriptions.ts lines 3-19. -/
def TIER_CONFIGS : SubscriptionTier → TierConfig
  | .FREE => { rateLimitTokens := 10, rateLimitWindowMs := 60 * 1000,
               allowedEndpoints := ["/api/trust", "/api/health"] }
  | .PRO => { rateLimitTokens := 100, rateLimitWindowMs := 60 * 1000,
              allowedEndpoints := ["/api/trust", "/api/health", "/api/bond"] }
  | .ENTERPRISE => { rateLimitTokens := 1000, rateLimitWindowMs := 60 * 1000,
                     allowedEndpoints := ["*"] }

structure ApiKeyRecord where
  key : String
  tier : SubscriptionTier
  createdAtMs : Int
  expiresAtMs : Option Int
  isAdminOverride : Bool
deriving DecidableEq

structure QuotaUsage where
  tokensUsed : Nat
  windowStartMs : Int
deriving DecidableEq

/-- Map.prototype.get on an insertion-ordered association list. -/
def mapGet {α : Type} : List (String × α) → String → Option α
  | [], _ => none
  | p :: rest, k => if p.1 == k then some p.2 else mapGet rest k

/-- Map.prototype.set on an insertion-ordered association list: replace the
existing entry in place, otherwise append. -/
def mapSet {α : Type} : List (String × α) → String → α → List (String × α)
  | [], k, v => [(k, v)]
  | p :: rest, k, v => if p.1 == k then (k, v) :: rest else p :: mapSet rest k v

/-- JS String.prototype.startsWith, on the character sequences. -/
def jsStartsWith (s pre : String) : Bool :=
  pre.data.isPrefixOf s.data

/-- Number.MAX_SAFE_INTEGER. -/
def maxSafeInteger : Int := 9007199254740991

structure QuotaDecision where
  allowed : Bool
  remaining : Int
deriving DecidableEq

/-- isEndpointAllowed from src/services/subscriptions.ts lines 66-74. -/
def isEndpointAllowed (keyRecord : ApiKeyRecord) (path : String) : Bool :=
  let config := TIER_CONFIGS keyRecord.tier
  if config.allowedEndpoints.contains "*" then
    true
  else
    config.allowedEndpoints.any (fun allowed => jsStartsWith path allowed)

/-- checkAndIncrementQuota from src/services/subscriptions.ts lines 81-110.
The quota ledger (the quotaUsages map of the service) is passed and returned
explicitly; now is the Date.now() value observed during the call. -/
def checkAndIncrementQuota (keyRecord : ApiKeyRecord) (now : Int)
    (quotaUsages : List (String × QuotaUsage)) :
    QuotaDecision × List (String × QuotaUsage) :=
  if keyRecord.isAdminOverride then
    ({ allowed := true, remaining := maxSafeInteger }, quotaUsages)
  else
    let config := TIER_CONFIGS keyRecord.tier
    let usage : QuotaUsage :=
      match mapGet quotaUsages keyRecord.key with
      | none => { tokensUsed := 0, windowStartMs := now }
      | some u =>
        if config.rateLimitWindowMs ≤ now - u.windowStartMs then
          { tokensUsed := 0, windowStartMs := now }
        else u
    if config.rateLimitTokens ≤ usage.tokensUsed then
      ({ allowed := false, remaining := 0 }, mapSet quotaUsages keyRecord.key usage)
    else
      let usage2 : QuotaUsage :=
        { tokensUsed := usage.tokensUsed + 1, windowStartMs := usage.windowStartMs }
      ({ allowed := true,
         remaining := (config.rateLimitTokens : Int) - (usage2.tokensUsed : Int) },
        mapSet quotaUsages keyRecord.key usage2)

/-- The full in-memory state of the SubscriptionService: the apiKeys registry
and the quotaUsages ledger. -/
structure SubscriptionState where
  apiKeys : List (String × ApiKeyRecord)
  quotaUsages : List (String × QuotaUsage)
deriving DecidableEq

/-- registerKey from src/services/subscriptions.ts lines 40-49; the source
default isAdminOverride = false is the caller passing false here. -/
def registerKey (st : SubscriptionState) (key : String) (tier : SubscriptionTier)
    (isAdminOverride : Bool) (now : Int) : ApiKeyRecord × SubscriptionState :=
  let record : ApiKeyRecord :=
    { key := key, tier := tier, createdAtMs := now, expiresAtMs := none,
      isAdminOverride := isAdminOverride }
  (record, { st with apiKeys := mapSet st.apiKeys key record })

/-- getKey from src/services/subscriptions.ts lines 56-58. -/
def getKey (st : SubscriptionState) (key : String) : Option ApiKeyRecord :=
  mapGet st.apiKeys key

/-- reset from src/services/subscriptions.ts lines 115-118: clears both maps. -/
def resetService (_st : SubscriptionState) : SubscriptionState :=
  { apiKeys := [], quotaUsages := [] }

/-- Iterated checkAndIncrementQuota: one call per timestamp, threading the
ledger, collecting the returned decisions in order. -/
def runCalls (keyRecord : ApiKeyRecord) (ts : List Int)
    (quotaUsages : List (String × QuotaUsage)) :
    List QuotaDecision × List (String × QuotaUsage) :=
  match ts with
  | [] => ([], quotaUsages)
  | t :: rest =>
    let step := checkAndIncrementQuota keyRecord t quotaUsages
    let tail := runCalls keyRecord rest step.2
    (step.1 :: tail.1, tail.2)

/-- tierLimit r is the per-window request limit of the tier of r. -/
def tierLimit (r : ApiKeyRecord) : Nat :=
  (TIER_CONFIGS r.tier).rateLimitTokens

/-- tierWindowMs r is the window length of the tier of r. -/
def tierWindowMs (r : ApiKeyRecord) : Int :=
  (TIER_CONFIGS r.tier).rateLimitWindowMs

/-- The decision the fixed-window algorithm is expected to return for the
Nth call of a window under limit L. -/
def expectedDecision (limit : Nat) (n : Nat) : QuotaDecision :=
  if n ≤ limit then { allowed := true, remaining := (limit : Int) - (n : Int) }
  else { allowed := false, remaining := 0 }

/- ### Relational Store: rows and schema (src/db/index.ts CREATE_TABLE_STATEMENTS) -/

inductive BondStatus
  | active
  | released
  | slashed
deriving DecidableEq

inductive ScoreSource
  | bond
  | attestation
  | slash
  | manual
deriving DecidableEq

structure IdentityRow where
  address : String
  displayName : Option String
  createdAt : Int
  updatedAt : Int
deriving DecidableEq

structure BondRow where
  id : Nat
  identityAddress : String
  amount : Int
  startTime : Int
  durationDays : Int
  status : BondStatus
  createdAt : Int
deriving DecidableEq

structure AttestationRow where
  id : Nat
  bondId : Nat
  attesterAddress : String
  subjectAddress : String
  score : Int
  note : Option String
  createdAt : Int
deriving DecidableEq

structure SlashEventRow where
  id : Nat
  bondId : Nat
  slashAmount : Int
  reason : String
  createdAt : Int
deriving DecidableEq

structure ScoreHistoryRow where
  id : Nat
  identityAddress : String
  score : Int
  source : ScoreSource
  computedAt : Int
deriving DecidableEq

/-- The five tables plus the BIGSERIAL sequences that generate surrogate ids. -/
structure Store where
  identities : List IdentityRow
  bonds : List BondRow
  attestations : List AttestationRow
  slashEvents : List SlashEventRow
  scoreHistory : List ScoreHistoryRow
  nextBondId : Nat
  nextAttestationId : Nat
  nextSlashEventId : Nat
  nextScoreHistoryId : Nat
deriving DecidableEq

/-- A freshly created schema: empty tables, sequences at 1. -/
def emptyStore : Store :=
  { identities := [], bonds := [], attestations := [], slashEvents := [],
    scoreHistory := [], nextBondId := 1, nextAttestationId := 1,
    nextSlashEventId := 1, nextScoreHistoryId := 1 }

/-- The three machine-readable constraint-violation kinds the store surfaces. -/
inductive DbErrorKind
  | duplicateKey
  | foreignKey
  | checkViolation
deriving DecidableEq

/-- Postgres length(trim(s)) > 0: s contains a character other than a space
(trim with no arguments strips spaces only). -/
def trimmedNonempty (s : String) : Bool :=
  s.data.any (fun c => !(c == ' '))

/-- SELECT ... WHERE pred ORDER BY ord: filter then sort.  ord a b reads
"a comes no later than b". -/
def sqlSelect {α : Type} (table : List α) (pred : α → Bool)
    (ord : α → α → Prop) [DecidableRel ord] : List α :=
  List.insertionSort ord (table.filter pred)

/-- ORDER BY start_time DESC, id DESC on bonds. -/
def bondOrder (a b : BondRow) : Prop :=
  b.startTime < a.startTime ∨ (b.startTime = a.startTime ∧ b.id ≤ a.id)

/-- ORDER BY created_at DESC, id DESC on attestations. -/
def attestationOrder (a b : AttestationRow) : Prop :=
  b.createdAt < a.createdAt ∨ (b.createdAt = a.createdAt ∧ b.id ≤ a.id)

/-- ORDER BY created_at DESC, id DESC on slash events. -/
def slashEventOrder (a b : SlashEventRow) : Prop :=
  b.createdAt < a.createdAt ∨ (b.createdAt = a.createdAt ∧ b.id ≤ a.id)

/-- ORDER BY computed_at DESC, id DESC on score history. -/
def scoreHistoryOrder (a b : ScoreHistoryRow) : Prop :=
  b.computedAt < a.computedAt ∨ (b.computedAt = a.computedAt ∧ b.id ≤ a.id)

/-- ORDER BY created_at ASC, address ASC on identities. -/
def identityOrder (a b : IdentityRow) : Prop :=
  a.createdAt < b.createdAt ∨ (a.createdAt = b.createdAt ∧ a.address ≤ b.address)

instance : DecidableRel bondOrder := fun a b => by
  unfold bondOrder; infer_instance

instance : DecidableRel attestationOrder := fun a b => by
  unfold attestationOrder; infer_instance

instance : DecidableRel slashEventOrder := fun a b => by
  unfold slashEventOrder; infer_instance

instance : DecidableRel scoreHistoryOrder := fun a b => by
  unfold scoreHistoryOrder; infer_instance

instance : DecidableRel identityOrder := fun a b => by
  unfold identityOrder; infer_instance

instance : IsTotal BondRow bondOrder :=
  ⟨by intro a b; unfold bondOrder; omega⟩

instance : IsTrans BondRow bondOrder :=
  ⟨by intro a b c; unfold bondOrder; omega⟩

instance : IsTotal AttestationRow attestationOrder :=
  ⟨by intro a b; unfold attestationOrder; omega⟩

instance : IsTrans AttestationRow attestationOrder :=
  ⟨by intro a b c; unfold attestationOrder; omega⟩

instance : IsTotal SlashEventRow slashEventOrder :=
  ⟨by intro a b; unfold slashEventOrder; omega⟩

instance : IsTrans SlashEventRow slashEventOrder :=
  ⟨by intro a b c; unfold slashEventOrder; omega⟩

instance : IsTotal ScoreHistoryRow scoreHistoryOrder :=
  ⟨by intro a b; unfold scoreHistoryOrder; omega⟩

instance : IsTrans ScoreHistoryRow scoreHistoryOrder :=
  ⟨by intro a b c; unfold scoreHistoryOrder; omega⟩

instance : IsTotal IdentityRow identityOrder :=
  ⟨by
    intro a b
    unfold identityOrder
    rcases lt_trichotomy a.createdAt b.createdAt with h | h | h
    · exact Or.inl (Or.inl h)
    · rcases le_total a.address b.address with h2 | h2
      · exact Or.inl (Or.inr ⟨h, h2⟩)
      · exact Or.inr (Or.inr ⟨h.symm, h2⟩)
    · exact Or.inr (Or.inl h)⟩

instance : IsTrans IdentityRow identityOrder :=
  ⟨by
    intro a b c hab hbc
    unfold identityOrder at *
    rcases hab with h1 | ⟨h1, h1a⟩ <;> rcases hbc with h2 | ⟨h2, h2a⟩
    · exact Or.inl (h1.trans h2)
    · exact Or.inl (h2 ▸ h1)
    · exact Or.inl (h1 ▸ h2)
    · exact Or.inr ⟨h1.trans h2, h1a.trans h2a⟩⟩

/- ### Repository operations.  Each mirrors the single SQL statement issued by
the corresponding repository method, including the constraint checks of the
schema; now is the NOW()/DEFAULT NOW() timestamp of the statement. -/

/-- IdentitiesRepository.create: INSERT INTO identities, enforcing the
primary key and the identities_address_nonempty check. -/
def identitiesCreate (s : Store) (address : String) (displayName : Option String)
    (now : Int) : Except DbErrorKind (IdentityRow × Store) :=
  if !trimmedNonempty address then
    .error .checkViolation
  else if s.identities.any (fun i => i.address == address) then
    .error .duplicateKey
  else
    let row : IdentityRow :=
      { address := address, displayName := displayName, createdAt := now,
        updatedAt := now }
    .ok (row, { s with identities := s.identities ++ [row] })

/-- IdentitiesRepository.findByAddress: SELECT ... WHERE address = $1. -/
def identitiesFindByAddress (s : Store) (address : String) : Option IdentityRow :=
  s.identities.find? (fun i => i.address == address)

/-- IdentitiesRepository.list: SELECT ... ORDER BY created_at ASC, address ASC. -/
def identitiesList (s : Store) : List IdentityRow :=
  sqlSelect s.identities (fun _ => true) identityOrder

/-- IdentitiesRepository.update: UPDATE identities SET display_name, updated_at
WHERE address = $1 RETURNING ...; null when no row matches. -/
def identitiesUpdate (s : Store) (address : String) (displayName : Option String)
    (now : Int) : Option IdentityRow × Store :=
  match s.identities.find? (fun i => i.address == address) with
  | none => (none, s)
  | some i =>
    (some { i with displayName := displayName, updatedAt := now },
      { s with identities :=
          s.identities.map (fun x =>
            if x.address == address then
              { x with displayName := displayName, updatedAt := now }
            else x) })

/-- IdentitiesRepository.delete: DELETE FROM identities WHERE address = $1,
with the ON DELETE CASCADE actions of the schema: bonds of the identity go,
attestations and slash events of those bonds go, attestations naming the
identity as attester or subject go, and score history of the identity goes. -/
def identitiesDelete (s : Store) (address : String) : Bool × Store :=
  let removedBondIds := (s.bonds.filter (fun b => b.identityAddress == address)).map (·.id)
  (s.identities.any (fun i => i.address == address),
    { s with
      identities := s.identities.filter (fun i => !(i.address == address)),
      bonds := s.bonds.filter (fun b => !(b.identityAddress == address)),
      attestations := s.attestations.filter (fun a =>
        !(removedBondIds.contains a.bondId || a.attesterAddress == address
          || a.subjectAddress == address)),
      slashEvents := s.slashEvents.filter (fun e => !(removedBondIds.contains e.bondId)),
      scoreHistory := s.scoreHistory.filter (fun h => !(h.identityAddress == address)) })

/-- BondsRepository.create: INSERT INTO bonds with the amount and duration
checks and the identity foreign key; status defaults to active. -/
def bondsCreate (s : Store) (identityAddress : String) (amount : Int)
    (startTime : Int) (durationDays : Int) (status : Option BondStatus)
    (now : Int) : Except DbErrorKind (BondRow × Store) :=
  if amount < 0 then
    .error .checkViolation
  else if durationDays ≤ 0 then
    .error .checkViolation
  else if !(s.identities.any (fun i => i.address == identityAddress)) then
    .error .foreignKey
  else
    let row : BondRow :=
      { id := s.nextBondId, identityAddress := identityAddress, amount := amount,
        startTime := startTime, durationDays := durationDays,
        status := status.getD .active, createdAt := now }
    .ok (row, { s with bonds := s.bonds ++ [row], nextBondId := s.nextBondId + 1 })

/-- BondsRepository.findById: SELECT ... WHERE id = $1. -/
def bondsFindById (s : Store) (id : Nat) : Option BondRow :=
  s.bonds.find? (fun b => b.id == id)

/-- BondsRepository.listByIdentity: SELECT ... WHERE identity_address = $1
ORDER BY start_time DESC, id DESC. -/
def bondsListByIdentity (s : Store) (identityAddress : String) : List BondRow :=
  sqlSelect s.bonds (fun b => b.identityAddress == identityAddress) bondOrder

/-- BondsRepository.updateStatus: UPDATE bonds SET status WHERE id = $1
RETURNING ...; null when no row matches. -/
def bondsUpdateStatus (s : Store) (id : Nat) (status : BondStatus) :
    Option BondRow × Store :=
  match s.bonds.find? (fun b => b.id == id) with
  | none => (none, s)
  | some b =>
    (some { b with status := status },
      { s with bonds :=
          s.bonds.map (fun x => if x.id == id then { x with status := status } else x) })

/-- BondsRepository.delete: DELETE FROM bonds WHERE id = $1, cascading to the
attestations and slash events of the bond. -/
def bondsDelete (s : Store) (id : Nat) : Bool × Store :=
  (s.bonds.any (fun b => b.id == id),
    { s with
      bonds := s.bonds.filter (fun b => !(b.id == id)),
      attestations := s.attestations.filter (fun a => !(a.bondId == id)),
      slashEvents := s.slashEvents.filter (fun e => !(e.bondId == id)) })

/-- AttestationsRepository.create: INSERT INTO attestations with the score
range check, the three foreign keys, and the
attestations_unique_attester_subject_per_bond unique constraint. -/
def attestationsCreate (s : Store) (bondId : Nat)
    (attesterAddress subjectAddress : String) (score : Int)
    (note : Option String) (now : Int) : Except DbErrorKind (AttestationRow × Store) :=
  if ¬(0 ≤ score ∧ score ≤ 100) then
    .error .checkViolation
  else if !(s.bonds.any (fun b => b.id == bondId)) then
    .error .foreignKey
  else if !(s.identities.any (fun i => i.address == attesterAddress)) then
    .error .foreignKey
  else if !(s.identities.any (fun i => i.address == subjectAddress)) then
    .error .foreignKey
  else if s.attestations.any (fun a =>
      a.bondId == bondId && a.attesterAddress == attesterAddress
        && a.subjectAddress == subjectAddress) then
    .error .duplicateKey
  else
    let row : AttestationRow :=
      { id := s.nextAttestationId, bondId := bondId,
        attesterAddress := attesterAddress, subjectAddress := subjectAddress,
        score := score, note := note, createdAt := now }
    let s2 := { s with attestations := s.attestations ++ [row],
                       nextAttestationId := s.nextAttestationId + 1 }
    .ok (row, s2)

/-- AttestationsRepository.findById: SELECT ... WHERE id = $1. -/
def attestationsFindById (s : Store) (id : Nat) : Option AttestationRow :=
  s.attestations.find? (fun a => a.id == id)

/-- AttestationsRepository.listBySubject: SELECT ... WHERE subject_address = $1
ORDER BY created_at DESC, id DESC. -/
def attestationsListBySubject (s : Store) (subjectAddress : String) :
    List AttestationRow :=
  sqlSelect s.attestations (fun a => a.subjectAddress == subjectAddress)
    attestationOrder

/-- AttestationsRepository.listByBond: SELECT ... WHERE bond_id = $1
ORDER BY created_at DESC, id DESC. -/
def attestationsListByBond (s : Store) (bondId : Nat) : List AttestationRow :=
  sqlSelect s.attestations (fun a => a.bondId == bondId) attestationOrder

/-- AttestationsRepository.updateScore: UPDATE attestations SET score
WHERE id = $1 RETURNING ...; null when no row matches, check violation when
the new score is out of range. -/
def attestationsUpdateScore (s : Store) (id : Nat) (score : Int) :
    Except DbErrorKind (Option AttestationRow × Store) :=
  match s.attestations.find? (fun a => a.id == id) with
  | none => .ok (none, s)
  | some a =>
    if ¬(0 ≤ score ∧ score ≤ 100) then
      .error .checkViolation
    else
      .ok (some { a with score := score },
        { s with attestations :=
            s.attestations.map (fun x =>
              if x.id == id then { x with score := score } else x) })

/-- AttestationsRepository.delete: DELETE FROM attestations WHERE id = $1. -/
def attestationsDelete (s : Store) (id : Nat) : Bool × Store :=
  (s.attestations.any (fun a => a.id == id),
    { s with attestations := s.attestations.filter (fun a => !(a.id == id)) })

/-- SlashEventsRepository.create: INSERT INTO slash_events with the positive
amount check, the slash_events_reason_nonempty check, and the bond foreign key. -/
def slashEventsCreate (s : Store) (bondId : Nat) (slashAmount : Int)
    (reason : String) (now : Int) : Except DbErrorKind (SlashEventRow × Store) :=
  if slashAmount ≤ 0 then
    .error .checkViolation
  else if !trimmedNonempty reason then
    .error .checkViolation
  else if !(s.bonds.any (fun b => b.id == bondId)) then
    .error .foreignKey
  else
    let row : SlashEventRow :=
      { id := s.nextSlashEventId, bondId := bondId, slashAmount := slashAmount,
        reason := reason, createdAt := now }
    let s2 := { s with slashEvents := s.slashEvents ++ [row],
                       nextSlashEventId := s.nextSlashEventId + 1 }
    .ok (row, s2)

/-- SlashEventsRepository.findById: SELECT ... WHERE id = $1. -/
def slashEventsFindById (s : Store) (id : Nat) : Option SlashEventRow :=
  s.slashEvents.find? (fun e => e.id == id)

/-- SlashEventsRepository.listByBond: SELECT ... WHERE bond_id = $1
ORDER BY created_at DESC, id DESC. -/
def slashEventsListByBond (s : Store) (bondId : Nat) : List SlashEventRow :=
  sqlSelect s.slashEvents (fun e => e.bondId == bondId) slashEventOrder

/-- SlashEventsRepository.totalSlashedForBond:
SELECT COALESCE(SUM(slash_amount)::TEXT, '0') WHERE bond_id = $1.  The SUM of
no rows is NULL and COALESCE turns it into the string "0"; in the fixed-point
value model both are the value 0. -/
def totalSlashedForBond (s : Store) (bondId : Nat) : Int :=
  (((s.slashEvents.filter (fun e => e.bondId == bondId)).map (·.slashAmount)).sum)

/-- SlashEventsRepository.delete: DELETE FROM slash_events WHERE id = $1. -/
def slashEventsDelete (s : Store) (id : Nat) : Bool × Store :=
  (s.slashEvents.any (fun e => e.id == id),
    { s with slashEvents := s.slashEvents.filter (fun e => !(e.id == id)) })

/-- ScoreHistoryRepository.create: INSERT INTO score_history with the score
range check and the identity foreign key; computed_at defaults to NOW() via
COALESCE($4, NOW()). -/
def scoreHistoryCreate (s : Store) (identityAddress : String) (score : Int)
    (source : ScoreSource) (computedAt : Option Int) (now : Int) :
    Except DbErrorKind (ScoreHistoryRow × Store) :=
  if ¬(0 ≤ score ∧ score ≤ 100) then
    .error .checkViolation
  else if !(s.identities.any (fun i => i.address == identityAddress)) then
    .error .foreignKey
  else
    let row : ScoreHistoryRow :=
      { id := s.nextScoreHistoryId, identityAddress := identityAddress,
        score := score, source := source, computedAt := computedAt.getD now }
    let s2 := { s with scoreHistory := s.scoreHistory ++ [row],
                       nextScoreHistoryId := s.nextScoreHistoryId + 1 }
    .ok (row, s2)

/-- ScoreHistoryRepository.listByIdentity: SELECT ... WHERE identity_address
= $1 ORDER BY computed_at DESC, id DESC. -/
def scoreHistoryListByIdentity (s : Store) (identityAddress : String) :
    List ScoreHistoryRow :=
  sqlSelect s.scoreHistory (fun h => h.identityAddress == identityAddress)
    scoreHistoryOrder

/-- ScoreHistoryRepository.findLatestByIdentity: same query with LIMIT 1. -/
def scoreHistoryFindLatestByIdentity (s : Store) (identityAddress : String) :
    Option ScoreHistoryRow :=
  (scoreHistoryListByIdentity s identityAddress).head?

/-- ScoreHistoryRepository.delete: DELETE FROM score_history WHERE id = $1. -/
def scoreHistoryDelete (s : Store) (id : Nat) : Bool × Store :=
  (s.scoreHistory.any (fun h => h.id == id),
    { s with scoreHistory := s.scoreHistory.filter (fun h => !(h.id == id)) })

/-- resetDatabase: TRUNCATE all five tables RESTART IDENTITY CASCADE. -/
def resetDatabase (_s : Store) : Store := emptyStore

/-- The state after a fallible statement: the new store on success, the store
untouched when the statement failed (per-statement atomicity). -/
def applyOk {α : Type} (r : Except DbErrorKind (α × Store)) (s : Store) : Store :=
  match r with
  | .ok (_, s2) => s2
  | .error _ => s

/-- Store states reachable through the repository API from a fresh schema. -/
inductive Reachable : Store → Prop
  | empty : Reachable emptyStore
  | identityCreate (s addr dn now) : Reachable s →
      Reachable (applyOk (identitiesCreate s addr dn now) s)
  | identityUpdate (s addr dn now) : Reachable s →
      Reachable (identitiesUpdate s addr dn now).2
  | identityDelete (s addr) : Reachable s →
      Reachable (identitiesDelete s addr).2
  | bondCreate (s addr amount startTime durationDays status now) : Reachable s →
      Reachable (applyOk (bondsCreate s addr amount startTime durationDays status now) s)
  | bondUpdateStatus (s id status) : Reachable s →
      Reachable (bondsUpdateStatus s id status).2
  | bondDelete (s id) : Reachable s →
      Reachable (bondsDelete s id).2
  | attestationCreate (s bondId attester subject score note now) : Reachable s →
      Reachable (applyOk (attestationsCreate s bondId attester subject score note now) s)
  | attestationUpdateScore (s id score res s2) : Reachable s →
      attestationsUpdateScore s id score = .ok (res, s2) →
      Reachable s2
  | attestationDelete (s id) : Reachable s →
      Reachable (attestationsDelete s id).2
  | slashEventCreate (s bondId amount reason now) : Reachable s →
      Reachable (applyOk (slashEventsCreate s bondId amount reason now) s)
  | slashEventDelete (s id) : Reachable s →
      Reachable (slashEventsDelete s id).2
  | historyCreate (s addr score source computedAt now) : Reachable s →
      Reachable (applyOk (scoreHistoryCreate s addr score source computedAt now) s)
  | historyDelete (s id) : Reachable s →
      Reachable (scoreHistoryDelete s id).2
  | reset (s) : Reachable s → Reachable (resetDatabase s)

/- ### Invariant bundle for reachable stores -/

/-- Two attestation rows agree on the unique triple
(bond_id, attester_address, subject_address). -/
def sameTriple (a b : AttestationRow) : Prop :=
  a.bondId = b.bondId ∧ a.attesterAddress = b.attesterAddress ∧
    a.subjectAddress = b.subjectAddress

/-- The schema invariants maintained by every repository operation. -/
structure StoreWF (s : Store) : Prop where
  attTriples : s.attestations.Pairwise (fun a b => ¬ sameTriple a b)
  bondParent : ∀ b ∈ s.bonds, ∃ i ∈ s.identities, i.address = b.identityAddress
  attBondParent : ∀ a ∈ s.attestations, ∃ b ∈ s.bonds, b.id = a.bondId
  attAttesterParent : ∀ a ∈ s.attestations, ∃ i ∈ s.identities, i.address = a.attesterAddress
  attSubjectParent : ∀ a ∈ s.attestations, ∃ i ∈ s.identities, i.address = a.subjectAddress
  slashBondParent : ∀ e ∈ s.slashEvents, ∃ b ∈ s.bonds, b.id = e.bondId
  historyParent : ∀ h ∈ s.scoreHistory, ∃ i ∈ s.identities, i.address = h.identityAddress
  bondIdsBelow : ∀ b ∈ s.bonds, b.id < s.nextBondId
  bondIdsDistinct : s.bonds.Pairwise (fun a b => ¬ a.id = b.id)

/- ### Concrete fixtures used by witnesses and counterexamples -/

/-- A FREE-tier key with no admin override. -/
def freeRecord : ApiKeyRecord :=
  { key := "free-key", tier := .FREE, createdAtMs := 0, expiresAtMs := none,
    isAdminOverride := false }

/-- An ENTERPRISE-tier key with the admin override set. -/
def adminRecord : ApiKeyRecord :=
  { key := "admin-key", tier := .ENTERPRISE, createdAtMs := 0, expiresAtMs := none,
    isAdminOverride := true }

/-- An ENTERPRISE-tier key with no admin override. -/
def enterpriseRecord : ApiKeyRecord :=
  { key := "ent-key", tier := .ENTERPRISE, createdAtMs := 0, expiresAtMs := none,
    isAdminOverride := false }

/-- Eleven timestamps after the opening call, all inside the 60000 ms window. -/
def restTimes : List Int := [1, 2, 3, 4, 5, 6, 7, 8, 9, 10, 11]

/-- A store with identity X and two bonds of X: bond 1 created at time 1 with
start_time 100, bond 2 created at time 2 with start_time 50.  Creation order
and start_time order disagree. -/
def c3StoreA : Store := applyOk (identitiesCreate emptyStore "X" none 0) emptyStore

def c3StoreB : Store := applyOk (bondsCreate c3StoreA "X" 50000000 100 30 none 1) c3StoreA

def c3StoreC : Store := applyOk (bondsCreate c3StoreB "X" 50000000 50 30 none 2) c3StoreB

/-- Stores for the cascade scenario: identity GCASCADE_OWNER plus identities
X, Y, Z, a bond of the owner (amount "12.5"), an attestation (bond 1, X, Y,
score 70), a slash event (amount "2.5"), and a score history entry. -/
def cascadeS1 : Store := applyOk (identitiesCreate emptyStore "GCASCADE_OWNER" none 0) emptyStore

def cascadeS2 : Store := applyOk (identitiesCreate cascadeS1 "X" none 0) cascadeS1

def cascadeS3 : Store := applyOk (identitiesCreate cascadeS2 "Y" none 0) cascadeS2

def cascadeS4 : Store := applyOk (identitiesCreate cascadeS3 "Z" none 0) cascadeS3

def cascadeS5 : Store :=
  applyOk (bondsCreate cascadeS4 "GCASCADE_OWNER" 125000000 0 30 none 1) cascadeS4

def cascadeS6 : Store := applyOk (attestationsCreate cascadeS5 1 "X" "Y" 70 none 2) cascadeS5

def cascadeS7 : Store := applyOk (slashEventsCreate cascadeS6 1 25000000 "first penalty" 3) cascadeS6

def cascadeS8 : Store :=
  applyOk (scoreHistoryCreate cascadeS7 "GCASCADE_OWNER" 80 .manual none 4) cascadeS7

/-- cascadeS8 plus a second slash event of amount "4" on bond 1. -/
def slashStore : Store :=
  applyOk (slashEventsCreate cascadeS8 1 40000000 "second penalty" 5) cascadeS8

/-- A subscription state whose ledger already holds 10 used tokens for
free-key in a window opened at time 0, with an empty registry. -/
def c10State : SubscriptionState :=
  { apiKeys := [], quotaUsages := [("free-key", { tokensUsed := 10, windowStartMs := 0 })] }

/- ### Lemmas about the association-list map -/

theorem mapGet_mapSet_self {α : Type} (m : List (String × α)) (k : String) (v : α) :
    mapGet (mapSet m k v) k = some v := by
  induction m with
  | nil => simp [mapGet, mapSet]
  | cons p rest ih =>
    by_cases h : p.1 = k
    · simp [mapSet, mapGet, h]
    · simp [mapSet, mapGet, h, ih]

theorem mapGet_mapSet_ne {α : Type} (m : List (String × α)) (k k2 : String) (v : α)
    (hne : ¬ k2 = k) : mapGet (mapSet m k v) k2 = mapGet m k2 := by
  have hne2 : ¬ k = k2 := fun h => hne h.symm
  induction m with
  | nil => simp [mapGet, mapSet, hne2]
  | cons p rest ih =>
    by_cases h : p.1 = k
    · simp [mapSet, mapGet, h, hne2]
    · by_cases h2 : p.1 = k2
      · simp [mapSet, mapGet, h, h2, hne]
      · simp [mapSet, mapGet, h, h2, ih]

/- ### Step lemmas for checkAndIncrementQuota -/

theorem tierLimit_pos (r : ApiKeyRecord) : 0 < tierLimit r := by
  rcases r with ⟨k, tier, c, e, a⟩
  cases tier <;> simp [tierLimit, TIER_CONFIGS]

theorem check_fresh (r : ApiKeyRecord) (hadm : r.isAdminOverride = false)
    (now : Int) (ledger : List (String × QuotaUsage))
    (hfresh : mapGet ledger r.key = none ∨
      ∃ u, mapGet ledger r.key = some u ∧ tierWindowMs r ≤ now - u.windowStartMs) :
    checkAndIncrementQuota r now ledger =
      ({ allowed := true, remaining := (tierLimit r : Int) - 1 },
        mapSet ledger r.key { tokensUsed := 1, windowStartMs := now }) := by
  have hpos := tierLimit_pos r
  unfold tierLimit at hpos
  have hnle : ¬ (TIER_CONFIGS r.tier).rateLimitTokens ≤ 0 := by omega
  rcases hfresh with h | ⟨u, hu, hw⟩
  · simp [checkAndIncrementQuota, hadm, h, hnle, tierLimit]
  · unfold tierWindowMs at hw
    simp [checkAndIncrementQuota, hadm, hu, hw, hnle, tierLimit]

theorem check_in_window (r : ApiKeyRecord) (hadm : r.isAdminOverride = false)
    (now t0 : Int) (c : Nat) (ledger : List (String × QuotaUsage))
    (hl : mapGet ledger r.key = some { tokensUsed := c, windowStartMs := t0 })
    (hwin : now - t0 < tierWindowMs r) :
    checkAndIncrementQuota r now ledger =
      if c < tierLimit r then
        ({ allowed := true, remaining := (tierLimit r : Int) - ((c : Int) + 1) },
          mapSet ledger r.key { tokensUsed := c + 1, windowStartMs := t0 })
      else
        ({ allowed := false, remaining := 0 },
          mapSet ledger r.key { tokensUsed := c, windowStartMs := t0 }) := by
  unfold tierWindowMs at hwin
  unfold tierLimit
  have hnw : ¬ (TIER_CONFIGS r.tier).rateLimitWindowMs ≤ now - t0 := not_le.mpr hwin
  by_cases hc : c < (TIER_CONFIGS r.tier).rateLimitTokens
  · rw [if_pos hc]
    have hcle : ¬ (TIER_CONFIGS r.tier).rateLimitTokens ≤ c := not_le.mpr hc
    simp [checkAndIncrementQuota, hadm, hl, hnw, hcle]
  · rw [if_neg hc]
    have hcle : (TIER_CONFIGS r.tier).rateLimitTokens ≤ c := not_lt.mp hc
    simp [checkAndIncrementQuota, hadm, hl, hnw, hcle]

theorem runCalls_nil (r : ApiKeyRecord) (ledger : List (String × QuotaUsage)) :
    runCalls r [] ledger = ([], ledger) := rfl

theorem runCalls_cons (r : ApiKeyRecord) (t : Int) (rest : List Int)
    (ledger : List (String × QuotaUsage)) :
    runCalls r (t :: rest) ledger =
      ((checkAndIncrementQuota r t ledger).1 ::
        (runCalls r rest (checkAndIncrementQuota r t ledger).2).1,
       (runCalls r rest (checkAndIncrementQuota r t ledger).2).2) := rfl

/-- C2: an admin-override key is admitted with MAX_SAFE_INTEGER remaining and
the quota ledger is returned untouched, whatever its contents. -/
theorem admin_override_frame (r : ApiKeyRecord) (now : Int)
    (ledger : List (String × QuotaUsage)) (h : r.isAdminOverride = true) :
    checkAndIncrementQuota r now ledger =
      ({ allowed := true, remaining := maxSafeInteger }, ledger) := by
  simp [checkAndIncrementQuota, h]

theorem admin_override_frame_witness :
    checkAndIncrementQuota adminRecord 123
        [("admin-key", { tokensUsed := 5, windowStartMs := 0 })] =
      ({ allowed := true, remaining := maxSafeInteger },
        [("admin-key", { tokensUsed := 5, windowStartMs := 0 })]) :=
  admin_override_frame adminRecord 123
    [("admin-key", { tokensUsed := 5, windowStartMs := 0 })] rfl

/-- C7: checkAndIncrementQuota is a total function of the record, the clock
and the ledger (the embedding of a component that never throws), and the
remaining count it returns is never negative. -/
theorem quota_remaining_nonneg (r : ApiKeyRecord) (now : Int)
    (ledger : List (String × QuotaUsage)) :
    0 ≤ ((checkAndIncrementQuota r now ledger).1).remaining := by
  by_cases hadm : r.isAdminOverride
  · simp [checkAndIncrementQuota, hadm, maxSafeInteger]
  · rcases hm : mapGet ledger r.key with _ | u
    · by_cases hc : (TIER_CONFIGS r.tier).rateLimitTokens ≤ 0
      · simp [checkAndIncrementQuota, hadm, hm, hc]
      · simp [checkAndIncrementQuota, hadm, hm, hc]
        omega
    · by_cases hw : (TIER_CONFIGS r.tier).rateLimitWindowMs ≤ now - u.windowStartMs
      · by_cases hc : (TIER_CONFIGS r.tier).rateLimitTokens ≤ 0
        · simp [checkAndIncrementQuota, hadm, hm, hw, hc]
        · simp [checkAndIncrementQuota, hadm, hm, hw, hc]
          omega
      · by_cases hc : (TIER_CONFIGS r.tier).rateLimitTokens ≤ u.tokensUsed
        · simp [checkAndIncrementQuota, hadm, hm, hw, hc]
        · simp [checkAndIncrementQuota, hadm, hm, hw, hc]
          omega

/-- C6: endpoint access is granted exactly when the tier allow-list holds the
wildcard or some allowed entry is a plain string prefix of the path; a FREE
key is denied /api/bond/123 but allowed /api/trustworthy (prefix over-match),
and an ENTERPRISE key is allowed every path. -/
theorem isEndpointAllowed_spec (r : ApiKeyRecord) (path : String) :
    (isEndpointAllowed r path = true ↔
      (TIER_CONFIGS r.tier).allowedEndpoints.contains "*" = true ∨
        ∃ p ∈ (TIER_CONFIGS r.tier).allowedEndpoints, jsStartsWith path p = true) ∧
    (r.tier = .FREE → isEndpointAllowed r "/api/bond/123" = false) ∧
    (r.tier = .FREE → isEndpointAllowed r "/api/trustworthy" = true) ∧
    (r.tier = .ENTERPRISE → ∀ q : String, isEndpointAllowed r q = true) := by
  refine ⟨?_, ?_, ?_, ?_⟩
  · by_cases h : (TIER_CONFIGS r.tier).allowedEndpoints.contains "*"
    · simp [isEndpointAllowed, h]
    · simp [isEndpointAllowed, h, List.any_eq_true]
  · intro h
    simp only [isEndpointAllowed, h]
    decide
  · intro h
    simp only [isEndpointAllowed, h]
    decide
  · intro h q
    simp only [isEndpointAllowed, h]
    simp [TIER_CONFIGS]

theorem isEndpointAllowed_spec_witness :
    isEndpointAllowed freeRecord "/api/bond/123" = false ∧
    isEndpointAllowed freeRecord "/api/trustworthy" = true ∧
    isEndpointAllowed enterpriseRecord "/internal/metrics" = true :=
  ⟨(isEndpointAllowed_spec freeRecord "/api/bond/123").2.1 rfl,
   (isEndpointAllowed_spec freeRecord "/api/trustworthy").2.2.1 rfl,
   (isEndpointAllowed_spec enterpriseRecord "/internal/metrics").2.2.2 rfl "/internal/metrics"⟩

theorem runCalls_in_window (r : ApiKeyRecord) (hadm : r.isAdminOverride = false)
    (t0 : Int) :
    ∀ (ts : List Int), (∀ t ∈ ts, t0 ≤ t ∧ t - t0 < tierWindowMs r) →
    ∀ (c : Nat), c ≤ tierLimit r →
    ∀ (ledger : List (String × QuotaUsage)),
      mapGet ledger r.key = some { tokensUsed := c, windowStartMs := t0 } →
      (runCalls r ts ledger).1 =
        (List.range ts.length).map
          (fun i => expectedDecision (tierLimit r) (c + i + 1)) := by
  intro ts
  induction ts with
  | nil =>
    intro _ c _ ledger _
    simp [runCalls_nil]
  | cons t rest ih =>
    intro hts c hc ledger hl
    have ht := hts t (List.mem_cons_self t rest)
    have hrest : ∀ x ∈ rest, t0 ≤ x ∧ x - t0 < tierWindowMs r :=
      fun x hx => hts x (List.mem_cons_of_mem t hx)
    have hstep := check_in_window r hadm t t0 c ledger hl ht.2
    rw [runCalls_cons]
    by_cases hcl : c < tierLimit r
    · rw [if_pos hcl] at hstep
      rw [hstep]
      have htail := ih hrest (c + 1) hcl
        (mapSet ledger r.key { tokensUsed := c + 1, windowStartMs := t0 })
        (mapGet_mapSet_self ledger r.key { tokensUsed := c + 1, windowStartMs := t0 })
      simp only [List.length_cons, List.range_succ_eq_map, List.map_cons, List.map_map,
        List.cons.injEq]
      constructor
      · have h1 : c + 0 + 1 ≤ tierLimit r := by omega
        simp [expectedDecision, h1]
      · rw [htail]
        apply List.map_congr_left
        intro i _
        simp only [Function.comp]
        congr 1
        omega
    · rw [if_neg hcl] at hstep
      rw [hstep]
      have htail := ih hrest c hc
        (mapSet ledger r.key { tokensUsed := c, windowStartMs := t0 })
        (mapGet_mapSet_self ledger r.key { tokensUsed := c, windowStartMs := t0 })
      simp only [List.length_cons, List.range_succ_eq_map, List.map_cons, List.map_map,
        List.cons.injEq]
      constructor
      · have h1 : ¬ (c + 0 + 1 ≤ tierLimit r) := by omega
        simp [expectedDecision, h1]
      · rw [htail]
        apply List.map_congr_left
        intro i _
        have h1 : ¬ (c + (i + 1) + 1 ≤ tierLimit r) := by omega
        have h2 : ¬ (c + i + 1 ≤ tierLimit r) := by omega
        simp [expectedDecision, h1, h2, Function.comp]

/-- C1: for a non-admin key and a sequence of calls whose timestamps all fall
in the fixed window opened by the first call (no prior ledger entry), the Nth
call with N up to the tier limit returns allowed with remaining = limit - N,
and call number limit + 1 returns allowed = false with remaining = 0; and any
single call finding no ledger entry, or an expired window, starts a fresh
window at the current clock (tokensUsed reset then incremented to 1,
windowStartMs = now) and returns allowed with remaining = limit - 1. -/
theorem quota_fixed_window_schedule (r : ApiKeyRecord)
    (hadm : r.isAdminOverride = false)
    (t0 : Int) (rest : List Int)
    (hrest : ∀ t ∈ rest, t0 ≤ t ∧ t - t0 < tierWindowMs r)
    (ledger0 : List (String × QuotaUsage))
    (h0 : mapGet ledger0 r.key = none) :
    (∀ N : Nat, 1 ≤ N → N ≤ (t0 :: rest).length →
      (N ≤ tierLimit r →
        ((runCalls r (t0 :: rest) ledger0).1)[N - 1]? =
          some { allowed := true, remaining := (tierLimit r : Int) - (N : Int) }) ∧
      (N = tierLimit r + 1 →
        ((runCalls r (t0 :: rest) ledger0).1)[N - 1]? =
          some { allowed := false, remaining := 0 })) ∧
    (∀ (ledger : List (String × QuotaUsage)) (now : Int),
      (mapGet ledger r.key = none ∨
        ∃ u, mapGet ledger r.key = some u ∧ tierWindowMs r ≤ now - u.windowStartMs) →
      checkAndIncrementQuota r now ledger =
        ({ allowed := true, remaining := (tierLimit r : Int) - 1 },
          mapSet ledger r.key { tokensUsed := 1, windowStartMs := now })) := by
  have hpos := tierLimit_pos r
  have hfirst := check_fresh r hadm t0 ledger0 (Or.inl h0)
  have hresults :
      (runCalls r (t0 :: rest) ledger0).1 =
        (List.range (t0 :: rest).length).map
          (fun i => expectedDecision (tierLimit r) (i + 1)) := by
    rw [runCalls_cons, hfirst]
    have htail := runCalls_in_window r hadm t0 rest hrest 1 hpos
      (mapSet ledger0 r.key { tokensUsed := 1, windowStartMs := t0 })
      (mapGet_mapSet_self ledger0 r.key { tokensUsed := 1, windowStartMs := t0 })
    simp only [List.length_cons, List.range_succ_eq_map, List.map_cons, List.map_map,
      List.cons.injEq]
    constructor
    · have h1 : (0 : Nat) + 1 ≤ tierLimit r := hpos
      simp [expectedDecision, h1]
    · rw [htail]
      apply List.map_congr_left
      intro i _
      simp only [Function.comp]
      congr 1
      omega
  constructor
  · intro N hN1 hNlen
    have hlt : N - 1 < (t0 :: rest).length := by
      simp only [List.length_cons] at hNlen ⊢
      omega
    have hget : ((runCalls r (t0 :: rest) ledger0).1)[N - 1]? =
        some (expectedDecision (tierLimit r) N) := by
      rw [hresults]
      rw [List.getElem?_map]
      rw [List.getElem?_range hlt]
      simp only [Option.map_some']
      congr 2
      omega
    constructor
    · intro hNle
      rw [hget]
      simp [expectedDecision, hNle]
    · intro hNeq
      rw [hget]
      have h1 : ¬ (N ≤ tierLimit r) := by omega
      simp [expectedDecision, h1]
  · intro ledger now hfresh
    exact check_fresh r hadm now ledger hfresh

theorem quota_fixed_window_schedule_witness :
    ((runCalls freeRecord (0 :: restTimes) []).1)[9]? =
      some { allowed := true, remaining := 0 } ∧
    ((runCalls freeRecord (0 :: restTimes) []).1)[10]? =
      some { allowed := false, remaining := 0 } := by
  have h := quota_fixed_window_schedule freeRecord rfl 0 restTimes (by decide) [] rfl
  refine ⟨?_, ?_⟩
  · have h10 := (h.1 10 (by decide) (by decide)).1 (by decide)
    simpa using h10
  · have h11 := (h.1 11 (by decide) (by decide)).2 (by decide)
    simpa using h11

/-- C10: registerKey rewrites only the registry entry of the given key,
creating a record with createdAt = now, no expiry, and the given override
flag (the source default is false); the quota ledger is untouched, so tokens
already consumed in the current window of the key still count toward the
limit after re-registration at any tier; only the reset operation clears the
ledger (and the registry). -/
theorem registerKey_frame (st : SubscriptionState) (key : String)
    (tier : SubscriptionTier) (adm : Bool) (now : Int) :
    ((registerKey st key tier adm now).2).quotaUsages = st.quotaUsages ∧
    (registerKey st key tier adm now).1 =
      { key := key, tier := tier, createdAtMs := now, expiresAtMs := none,
        isAdminOverride := adm } ∧
    mapGet ((registerKey st key tier adm now).2).apiKeys key =
      some { key := key, tier := tier, createdAtMs := now, expiresAtMs := none,
             isAdminOverride := adm } ∧
    (∀ k2, ¬ k2 = key →
      mapGet ((registerKey st key tier adm now).2).apiKeys k2 = mapGet st.apiKeys k2) ∧
    (∀ (u : QuotaUsage) (now2 : Int), adm = false →
      mapGet st.quotaUsages key = some u →
      now2 - u.windowStartMs < (TIER_CONFIGS tier).rateLimitWindowMs →
      (TIER_CONFIGS tier).rateLimitTokens ≤ u.tokensUsed →
      (checkAndIncrementQuota (registerKey st key tier adm now).1 now2
          ((registerKey st key tier adm now).2).quotaUsages).1 =
        { allowed := false, remaining := 0 }) ∧
    (resetService st).apiKeys = [] ∧ (resetService st).quotaUsages = [] := by
  refine ⟨rfl, rfl, mapGet_mapSet_self _ _ _, ?_, ?_, rfl, rfl⟩
  · intro k2 h
    exact mapGet_mapSet_ne st.apiKeys key k2 _ h
  · intro u now2 hadm hu hlt hle
    have hnw : ¬ (TIER_CONFIGS tier).rateLimitWindowMs ≤ now2 - u.windowStartMs :=
      not_le.mpr hlt
    simp [registerKey, checkAndIncrementQuota, hadm, hu, hnw, hle]

theorem registerKey_frame_witness :
    ((registerKey c10State "free-key" .FREE false 5).2).quotaUsages =
      c10State.quotaUsages ∧
    (checkAndIncrementQuota (registerKey c10State "free-key" .FREE false 5).1 1
        ((registerKey c10State "free-key" .FREE false 5).2).quotaUsages).1 =
      { allowed := false, remaining := 0 } := by
  have h := registerKey_frame c10State "free-key" .FREE false 5
  exact ⟨h.1, h.2.2.2.2.1 { tokensUsed := 10, windowStartMs := 0 } 1 rfl
    (by decide) (by decide) (by decide)⟩

/- ### Lemmas about sqlSelect -/

theorem sqlSelect_sorted {α : Type} (table : List α) (pred : α → Bool)
    (ord : α → α → Prop) [DecidableRel ord] [IsTotal α ord] [IsTrans α ord] :
    List.Sorted ord (sqlSelect table pred ord) :=
  List.sorted_insertionSort ord _

theorem sqlSelect_mem {α : Type} (table : List α) (pred : α → Bool)
    (ord : α → α → Prop) [DecidableRel ord] (a : α) :
    a ∈ sqlSelect table pred ord ↔ a ∈ table ∧ pred a = true := by
  rw [sqlSelect, (List.perm_insertionSort ord _).mem_iff]
  simp [List.mem_filter]

theorem sqlSelect_nil {α : Type} (table : List α) (pred : α → Bool)
    (ord : α → α → Prop) [DecidableRel ord]
    (h : ∀ a ∈ table, ¬ pred a = true) : sqlSelect table pred ord = [] := by
  apply List.eq_nil_iff_forall_not_mem.mpr
  intro a ha
  obtain ⟨hat, hp⟩ := (sqlSelect_mem table pred ord a).mp ha
  exact h a hat hp

/-- C3 corrected: the frozen claim says every list operation is ordered
newest-first by creation time; the code orders bonds by start_time and score
history by computed_at.  In the reachable store c3StoreC, bond 1 (createdAt 1,
startTime 100) is listed before bond 2 (createdAt 2, startTime 50), so the
listing of bonds of X is not sorted newest-first by createdAt. -/
theorem bonds_list_not_creation_ordered :
    Reachable c3StoreC ∧
    ¬ List.Sorted (fun a b : BondRow => b.createdAt ≤ a.createdAt)
        (bondsListByIdentity c3StoreC "X") := by
  constructor
  · exact Reachable.bondCreate c3StoreB "X" 50000000 50 30 none 2
      (Reachable.bondCreate c3StoreA "X" 50000000 100 30 none 1
        (Reachable.identityCreate emptyStore "X" none 0 Reachable.empty))
  · decide

/-- C3 amended: every list operation returns exactly the matching rows (an
empty list, never an error, when nothing matches), sorted as its SQL states:
attestation and slash-event listings newest-first by created_at with
descending id tie-break; bond listings by start_time descending then id
descending; score-history listings by computed_at descending then id
descending; the identity listing oldest-first by created_at then address
ascending. -/
theorem list_operations_ordering (s : Store) :
    (∀ addr, List.Sorted bondOrder (bondsListByIdentity s addr) ∧
      (∀ b, b ∈ bondsListByIdentity s addr ↔ b ∈ s.bonds ∧ b.identityAddress = addr) ∧
      ((∀ b ∈ s.bonds, ¬ b.identityAddress = addr) → bondsListByIdentity s addr = [])) ∧
    (∀ subj, List.Sorted attestationOrder (attestationsListBySubject s subj) ∧
      (∀ a, a ∈ attestationsListBySubject s subj ↔
        a ∈ s.attestations ∧ a.subjectAddress = subj) ∧
      ((∀ a ∈ s.attestations, ¬ a.subjectAddress = subj) →
        attestationsListBySubject s subj = [])) ∧
    (∀ bid, List.Sorted attestationOrder (attestationsListByBond s bid) ∧
      (∀ a, a ∈ attestationsListByBond s bid ↔ a ∈ s.attestations ∧ a.bondId = bid) ∧
      ((∀ a ∈ s.attestations, ¬ a.bondId = bid) → attestationsListByBond s bid = [])) ∧
    (∀ bid, List.Sorted slashEventOrder (slashEventsListByBond s bid) ∧
      (∀ e, e ∈ slashEventsListByBond s bid ↔ e ∈ s.slashEvents ∧ e.bondId = bid) ∧
      ((∀ e ∈ s.slashEvents, ¬ e.bondId = bid) → slashEventsListByBond s bid = [])) ∧
    (∀ addr, List.Sorted scoreHistoryOrder (scoreHistoryListByIdentity s addr) ∧
      (∀ h, h ∈ scoreHistoryListByIdentity s addr ↔
        h ∈ s.scoreHistory ∧ h.identityAddress = addr) ∧
      ((∀ h ∈ s.scoreHistory, ¬ h.identityAddress = addr) →
        scoreHistoryListByIdentity s addr = [])) ∧
    (List.Sorted identityOrder (identitiesList s) ∧
      (∀ i, i ∈ identitiesList s ↔ i ∈ s.identities)) := by
  refine ⟨fun addr => ⟨sqlSelect_sorted _ _ _, ?_, ?_⟩,
          fun subj => ⟨sqlSelect_sorted _ _ _, ?_, ?_⟩,
          fun bid => ⟨sqlSelect_sorted _ _ _, ?_, ?_⟩,
          fun bid => ⟨sqlSelect_sorted _ _ _, ?_, ?_⟩,
          fun addr => ⟨sqlSelect_sorted _ _ _, ?_, ?_⟩,
          ⟨sqlSelect_sorted _ _ _, ?_⟩⟩
  · intro b
    rw [bondsListByIdentity, sqlSelect_mem]
    simp
  · intro h
    exact sqlSelect_nil _ _ _ (by simpa using h)
  · intro a
    rw [attestationsListBySubject, sqlSelect_mem]
    simp
  · intro h
    exact sqlSelect_nil _ _ _ (by simpa using h)
  · intro a
    rw [attestationsListByBond, sqlSelect_mem]
    simp
  · intro h
    exact sqlSelect_nil _ _ _ (by simpa using h)
  · intro e
    rw [slashEventsListByBond, sqlSelect_mem]
    simp
  · intro h
    exact sqlSelect_nil _ _ _ (by simpa using h)
  · intro h
    rw [scoreHistoryListByIdentity, sqlSelect_mem]
    simp
  · intro h
    exact sqlSelect_nil _ _ _ (by simpa using h)
  · intro i
    rw [identitiesList, sqlSelect_mem]
    simp

theorem list_operations_ordering_witness :
    bondsListByIdentity c3StoreC "nobody" = [] :=
  ((list_operations_ordering c3StoreC).1 "nobody").2.2 (by decide)

/-- C8: findById/findByAddress return a null-equivalent exactly when no row
matches (they are total functions, never errors); updates of a non-existent
target return null and leave the store unchanged (so they never create a
row); an update that matches a row but violates the score range check throws
a check violation. -/
theorem lookup_update_contract :
    (∀ (s : Store) (id : Nat),
      bondsFindById s id = none ↔ ∀ b ∈ s.bonds, ¬ b.id = id) ∧
    (∀ (s : Store) (addr : String),
      identitiesFindByAddress s addr = none ↔ ∀ i ∈ s.identities, ¬ i.address = addr) ∧
    (∀ (s : Store) (id : Nat),
      attestationsFindById s id = none ↔ ∀ a ∈ s.attestations, ¬ a.id = id) ∧
    (∀ (s : Store) (id : Nat),
      slashEventsFindById s id = none ↔ ∀ e ∈ s.slashEvents, ¬ e.id = id) ∧
    (∀ (s : Store) (id : Nat) (st : BondStatus),
      (∀ b ∈ s.bonds, ¬ b.id = id) → bondsUpdateStatus s id st = (none, s)) ∧
    (∀ (s : Store) (id : Nat) (score : Int),
      (∀ a ∈ s.attestations, ¬ a.id = id) →
        attestationsUpdateScore s id score = .ok (none, s)) ∧
    (∀ (s : Store) (addr : String) (dn : Option String) (now : Int),
      (∀ i ∈ s.identities, ¬ i.address = addr) →
        identitiesUpdate s addr dn now = (none, s)) ∧
    (∀ (s : Store) (id : Nat) (score : Int),
      (∃ a ∈ s.attestations, a.id = id) → ¬(0 ≤ score ∧ score ≤ 100) →
        attestationsUpdateScore s id score = .error .checkViolation) := by
  refine ⟨?_, ?_, ?_, ?_, ?_, ?_, ?_, ?_⟩
  · intro s id
    rw [bondsFindById, List.find?_eq_none]
    simp
  · intro s addr
    rw [identitiesFindByAddress, List.find?_eq_none]
    simp
  · intro s id
    rw [attestationsFindById, List.find?_eq_none]
    simp
  · intro s id
    rw [slashEventsFindById, List.find?_eq_none]
    simp
  · intro s id st h
    have hf : s.bonds.find? (fun b => b.id == id) = none :=
      List.find?_eq_none.mpr (by simpa using h)
    simp [bondsUpdateStatus, hf]
  · intro s id score h
    have hf : s.attestations.find? (fun a => a.id == id) = none :=
      List.find?_eq_none.mpr (by simpa using h)
    simp [attestationsUpdateScore, hf]
  · intro s addr dn now h
    have hf : s.identities.find? (fun i => i.address == addr) = none :=
      List.find?_eq_none.mpr (by simpa using h)
    simp [identitiesUpdate, hf]
  · intro s id score hex hscore
    obtain ⟨a, ha, haid⟩ := hex
    have hsome : (s.attestations.find? (fun x => x.id == id)).isSome :=
      List.find?_isSome.mpr ⟨a, ha, by simp [haid]⟩
    obtain ⟨a0, ha0⟩ := Option.isSome_iff_exists.mp hsome
    simp [attestationsUpdateScore, ha0, hscore]

theorem lookup_update_contract_witness :
    bondsUpdateStatus emptyStore 1 .released = (none, emptyStore) ∧
    identitiesUpdate emptyStore "nobody" none 7 = (none, emptyStore) ∧
    attestationsUpdateScore cascadeS6 1 150 = .error .checkViolation := by
  refine ⟨lookup_update_contract.2.2.2.2.1 emptyStore 1 .released (by decide),
    lookup_update_contract.2.2.2.2.2.2.1 emptyStore "nobody" none 7 (by decide),
    lookup_update_contract.2.2.2.2.2.2.2 cascadeS6 1 150 ?_ (by decide)⟩
  decide

/-- C9: totalSlashedForBond returns exactly the sum of the slashAmount values
of the rows the repository itself lists for the bond, and the value 0 (the
COALESCE of the NULL sum into the string "0") when the bond has no slash
events. -/
theorem totalSlashed_spec (s : Store) (bid : Nat) :
    totalSlashedForBond s bid =
      ((slashEventsListByBond s bid).map (·.slashAmount)).sum ∧
    ((∀ e ∈ s.slashEvents, ¬ e.bondId = bid) → totalSlashedForBond s bid = 0) := by
  constructor
  · rw [totalSlashedForBond, slashEventsListByBond, sqlSelect]
    exact (List.Perm.sum_eq
      (List.Perm.map _ (List.perm_insertionSort slashEventOrder _))).symm
  · intro h
    have hnil : s.slashEvents.filter (fun e => e.bondId == bid) = [] := by
      apply List.eq_nil_iff_forall_not_mem.mpr
      intro e he
      rw [List.mem_filter] at he
      exact h e he.1 (by simpa using he.2)
    rw [totalSlashedForBond, hnil]
    rfl

theorem totalSlashed_spec_witness :
    totalSlashedForBond slashStore 1 = 65000000 ∧
    totalSlashedForBond slashStore 2 = 0 :=
  ⟨by decide, (totalSlashed_spec slashStore 2).2 (by decide)⟩

/- ### Preservation of the schema invariants by each repository operation -/

theorem refAll_parent_append {α β : Type} {C : List α} {P : List β}
    {rel : α → β → Prop} (h : ∀ c ∈ C, ∃ p ∈ P, rel c p) (P2 : List β) :
    ∀ c ∈ C, ∃ p ∈ P ++ P2, rel c p := by
  intro c hc
  obtain ⟨p, hp, hr⟩ := h c hc
  exact ⟨p, List.mem_append_left _ hp, hr⟩

theorem refAll_child_filter {α β : Type} {C : List α} {P : List β}
    {rel : α → β → Prop} (h : ∀ c ∈ C, ∃ p ∈ P, rel c p) (q : α → Bool) :
    ∀ c ∈ C.filter q, ∃ p ∈ P, rel c p :=
  fun c hc => h c (List.mem_filter.mp hc).1

theorem refAll_parent_map {α β : Type} {C : List α} {P : List β}
    {rel : α → β → Prop} (h : ∀ c ∈ C, ∃ p ∈ P, rel c p) (f : β → β)
    (hf : ∀ c p, rel c p → rel c (f p)) :
    ∀ c ∈ C, ∃ p ∈ P.map f, rel c p := by
  intro c hc
  obtain ⟨p, hp, hr⟩ := h c hc
  exact ⟨f p, List.mem_map_of_mem f hp, hf c p hr⟩

theorem refAll_child_map {α β : Type} {C : List α} {P : List β}
    {rel : α → β → Prop} (h : ∀ c ∈ C, ∃ p ∈ P, rel c p) (f : α → α)
    (hf : ∀ c p, rel c p → rel (f c) p) :
    ∀ c ∈ C.map f, ∃ p ∈ P, rel c p := by
  intro c hc
  obtain ⟨c0, hc0, rfl⟩ := List.mem_map.mp hc
  obtain ⟨p, hp, hr⟩ := h c0 hc0
  exact ⟨p, hp, hf c0 p hr⟩

theorem wf_identitiesCreate (s : Store) (addr : String) (dn : Option String)
    (now : Int) (r : IdentityRow) (s2 : Store) (h : StoreWF s)
    (hc : identitiesCreate s addr dn now = .ok (r, s2)) : StoreWF s2 := by
  unfold identitiesCreate at hc
  split at hc
  · simp at hc
  split at hc
  · simp at hc
  simp only [Except.ok.injEq, Prod.mk.injEq] at hc
  obtain ⟨-, hs⟩ := hc
  subst hs
  exact {
    attTriples := h.attTriples
    bondParent := refAll_parent_append h.bondParent _
    attBondParent := h.attBondParent
    attAttesterParent := refAll_parent_append h.attAttesterParent _
    attSubjectParent := refAll_parent_append h.attSubjectParent _
    slashBondParent := h.slashBondParent
    historyParent := refAll_parent_append h.historyParent _
    bondIdsBelow := h.bondIdsBelow
    bondIdsDistinct := h.bondIdsDistinct }

theorem wf_identitiesUpdate (s : Store) (addr : String) (dn : Option String)
    (now : Int) (h : StoreWF s) : StoreWF (identitiesUpdate s addr dn now).2 := by
  rcases hf : s.identities.find? (fun i => i.address == addr) with _ | i
  · simp only [identitiesUpdate, hf]
    exact h
  · simp only [identitiesUpdate, hf]
    have haddr : ∀ x : IdentityRow,
        ((fun x => if x.address == addr then
            { x with displayName := dn, updatedAt := now } else x) x).address =
          x.address := by
      intro x
      by_cases hx : x.address == addr <;> simp [hx]
    exact {
      attTriples := h.attTriples
      bondParent := refAll_parent_map h.bondParent _
        (fun c p hr => by rw [haddr]; exact hr)
      attBondParent := h.attBondParent
      attAttesterParent := refAll_parent_map h.attAttesterParent _
        (fun c p hr => by rw [haddr]; exact hr)
      attSubjectParent := refAll_parent_map h.attSubjectParent _
        (fun c p hr => by rw [haddr]; exact hr)
      slashBondParent := h.slashBondParent
      historyParent := refAll_parent_map h.historyParent _
        (fun c p hr => by rw [haddr]; exact hr)
      bondIdsBelow := h.bondIdsBelow
      bondIdsDistinct := h.bondIdsDistinct }

theorem wf_bondsCreate (s : Store) (addr : String) (amount startTime : Int)
    (durationDays : Int) (status : Option BondStatus) (now : Int)
    (r : BondRow) (s2 : Store) (h : StoreWF s)
    (hc : bondsCreate s addr amount startTime durationDays status now = .ok (r, s2)) :
    StoreWF s2 := by
  unfold bondsCreate at hc
  split at hc
  · simp at hc
  split at hc
  · simp at hc
  split at hc
  · simp at hc
  next hany =>
  have hany2 : ∃ i ∈ s.identities, i.address = addr := by
    have : s.identities.any (fun i => i.address == addr) = true := by
      simpa using hany
    simpa using this
  obtain ⟨i, hi, hieq⟩ := hany2
  simp only [Except.ok.injEq, Prod.mk.injEq] at hc
  obtain ⟨-, hs⟩ := hc
  subst hs
  exact {
    attTriples := h.attTriples
    bondParent := by
      intro b hb
      rcases List.mem_append.mp hb with hb | hb
      · exact h.bondParent b hb
      · rw [List.mem_singleton.mp hb]
        exact ⟨i, hi, hieq⟩
    attBondParent := refAll_parent_append h.attBondParent _
    attAttesterParent := h.attAttesterParent
    attSubjectParent := h.attSubjectParent
    slashBondParent := refAll_parent_append h.slashBondParent _
    historyParent := h.historyParent
    bondIdsBelow := by
      intro b hb
      rcases List.mem_append.mp hb with hb | hb
      · exact Nat.lt_succ_of_lt (h.bondIdsBelow b hb)
      · rw [List.mem_singleton.mp hb]
        exact Nat.lt_succ_self _
    bondIdsDistinct := by
      rw [List.pairwise_append]
      refine ⟨h.bondIdsDistinct, by simp, ?_⟩
      intro a ha b hb
      rw [List.mem_singleton] at hb
      subst hb
      show ¬ a.id = s.nextBondId
      have := h.bondIdsBelow a ha
      omega }

theorem wf_bondsUpdateStatus (s : Store) (id : Nat) (st : BondStatus)
    (h : StoreWF s) : StoreWF (bondsUpdateStatus s id st).2 := by
  rcases hf : s.bonds.find? (fun b => b.id == id) with _ | b0
  · simp only [bondsUpdateStatus, hf]
    exact h
  · simp only [bondsUpdateStatus, hf]
    have hid : ∀ x : BondRow,
        (if x.id == id then { x with status := st } else x).id = x.id := by
      intro x
      by_cases hx : x.id == id <;> simp [hx]
    have haddr : ∀ x : BondRow,
        (if x.id == id then { x with status := st } else x).identityAddress =
          x.identityAddress := by
      intro x
      by_cases hx : x.id == id <;> simp [hx]
    exact {
      attTriples := h.attTriples
      bondParent := refAll_child_map h.bondParent _
        (fun c p hr => by rw [haddr]; exact hr)
      attBondParent := refAll_parent_map h.attBondParent _
        (fun c p hr => by rw [hid]; exact hr)
      attAttesterParent := h.attAttesterParent
      attSubjectParent := h.attSubjectParent
      slashBondParent := refAll_parent_map h.slashBondParent _
        (fun c p hr => by rw [hid]; exact hr)
      historyParent := h.historyParent
      bondIdsBelow := by
        intro b hb
        obtain ⟨b1, hb1, rfl⟩ := List.mem_map.mp hb
        rw [hid]
        exact h.bondIdsBelow b1 hb1
      bondIdsDistinct := by
        refine List.Pairwise.map _ ?_ h.bondIdsDistinct
        intro a b hab
        rw [hid, hid]
        exact hab }

theorem wf_bondsDelete (s : Store) (id : Nat) (h : StoreWF s) :
    StoreWF (bondsDelete s id).2 := by
  refine {
    attTriples := h.attTriples.sublist (List.filter_sublist _)
    bondParent := refAll_child_filter h.bondParent _
    attBondParent := ?_
    attAttesterParent := refAll_child_filter h.attAttesterParent _
    attSubjectParent := refAll_child_filter h.attSubjectParent _
    slashBondParent := ?_
    historyParent := h.historyParent
    bondIdsBelow := fun b hb => h.bondIdsBelow b (List.mem_filter.mp hb).1
    bondIdsDistinct := h.bondIdsDistinct.sublist (List.filter_sublist _) }
  · intro a ha
    simp only [bondsDelete] at ha ⊢
    rw [List.mem_filter] at ha
    obtain ⟨ha1, ha2⟩ := ha
    obtain ⟨b, hb, hbid⟩ := h.attBondParent a ha1
    refine ⟨b, List.mem_filter.mpr ⟨hb, ?_⟩, hbid⟩
    simp at ha2 ⊢
    omega
  · intro e he
    simp only [bondsDelete] at he ⊢
    rw [List.mem_filter] at he
    obtain ⟨he1, he2⟩ := he
    obtain ⟨b, hb, hbid⟩ := h.slashBondParent e he1
    refine ⟨b, List.mem_filter.mpr ⟨hb, ?_⟩, hbid⟩
    simp at he2 ⊢
    omega

theorem wf_attestationsCreate (s : Store) (bondId : Nat)
    (attester subject : String) (score : Int) (note : Option String) (now : Int)
    (r : AttestationRow) (s2 : Store) (h : StoreWF s)
    (hc : attestationsCreate s bondId attester subject score note now = .ok (r, s2)) :
    StoreWF s2 := by
  unfold attestationsCreate at hc
  split at hc
  · simp at hc
  split at hc
  · simp at hc
  next hbond =>
  split at hc
  · simp at hc
  next hatt =>
  split at hc
  · simp at hc
  next hsubj =>
  split at hc
  · simp at hc
  next hdup =>
  have hbond2 : ∃ b ∈ s.bonds, b.id = bondId := by
    have : s.bonds.any (fun b => b.id == bondId) = true := by simpa using hbond
    simpa using this
  have hatt2 : ∃ i ∈ s.identities, i.address = attester := by
    have : s.identities.any (fun i => i.address == attester) = true := by simpa using hatt
    simpa using this
  have hsubj2 : ∃ i ∈ s.identities, i.address = subject := by
    have : s.identities.any (fun i => i.address == subject) = true := by simpa using hsubj
    simpa using this
  have hdup2 : ∀ a ∈ s.attestations,
      ¬ (a.bondId = bondId ∧ a.attesterAddress = attester ∧
        a.subjectAddress = subject) := by
    intro a ha hcon
    apply hdup
    rw [List.any_eq_true]
    exact ⟨a, ha, by simp [hcon.1, hcon.2.1, hcon.2.2]⟩
  simp only [Except.ok.injEq, Prod.mk.injEq] at hc
  obtain ⟨-, hs⟩ := hc
  subst hs
  refine {
    attTriples := ?_
    bondParent := h.bondParent
    attBondParent := ?_
    attAttesterParent := ?_
    attSubjectParent := ?_
    slashBondParent := h.slashBondParent
    historyParent := h.historyParent
    bondIdsBelow := h.bondIdsBelow
    bondIdsDistinct := h.bondIdsDistinct }
  · rw [List.pairwise_append]
    refine ⟨h.attTriples, by simp, ?_⟩
    intro a ha b hb
    rw [List.mem_singleton] at hb
    subst hb
    intro hcon
    exact hdup2 a ha ⟨hcon.1, hcon.2.1, hcon.2.2⟩
  · intro a ha
    rcases List.mem_append.mp ha with ha | ha
    · exact h.attBondParent a ha
    · rw [List.mem_singleton] at ha
      subst ha
      exact hbond2
  · intro a ha
    rcases List.mem_append.mp ha with ha | ha
    · exact h.attAttesterParent a ha
    · rw [List.mem_singleton] at ha
      subst ha
      exact hatt2
  · intro a ha
    rcases List.mem_append.mp ha with ha | ha
    · exact h.attSubjectParent a ha
    · rw [List.mem_singleton] at ha
      subst ha
      exact hsubj2

theorem wf_attestationsUpdateScore (s : Store) (id : Nat) (score : Int)
    (res : Option AttestationRow) (s2 : Store) (h : StoreWF s)
    (hc : attestationsUpdateScore s id score = .ok (res, s2)) : StoreWF s2 := by
  unfold attestationsUpdateScore at hc
  rcases hf : s.attestations.find? (fun a => a.id == id) with _ | a0
  · rw [hf] at hc
    simp only [Except.ok.injEq, Prod.mk.injEq] at hc
    obtain ⟨-, hs⟩ := hc
    subst hs
    exact h
  · rw [hf] at hc
    split at hc
    · simp only [Except.ok.injEq, Prod.mk.injEq] at hc
      exact hc.2 ▸ h
    split at hc
    · simp at hc
    simp only [Except.ok.injEq, Prod.mk.injEq] at hc
    obtain ⟨-, hs⟩ := hc
    subst hs
    have hpres : ∀ x : AttestationRow,
        (if x.id == id then { x with score := score } else x).id = x.id ∧
        (if x.id == id then { x with score := score } else x).bondId = x.bondId ∧
        (if x.id == id then { x with score := score } else x).attesterAddress =
          x.attesterAddress ∧
        (if x.id == id then { x with score := score } else x).subjectAddress =
          x.subjectAddress := by
      intro x
      by_cases hx : x.id == id <;> simp [hx]
    refine {
      attTriples := ?_
      bondParent := h.bondParent
      attBondParent := refAll_child_map h.attBondParent _
        (fun c p hr => by rw [(hpres c).2.1]; exact hr)
      attAttesterParent := refAll_child_map h.attAttesterParent _
        (fun c p hr => by rw [(hpres c).2.2.1]; exact hr)
      attSubjectParent := refAll_child_map h.attSubjectParent _
        (fun c p hr => by rw [(hpres c).2.2.2]; exact hr)
      slashBondParent := h.slashBondParent
      historyParent := h.historyParent
      bondIdsBelow := h.bondIdsBelow
      bondIdsDistinct := h.bondIdsDistinct }
    refine List.Pairwise.map _ ?_ h.attTriples
    intro a b hab hcon
    apply hab
    unfold sameTriple at hcon ⊢
    rw [(hpres a).2.1, (hpres b).2.1, (hpres a).2.2.1, (hpres b).2.2.1,
      (hpres a).2.2.2, (hpres b).2.2.2] at hcon
    exact hcon

theorem wf_attestationsDelete (s : Store) (id : Nat) (h : StoreWF s) :
    StoreWF (attestationsDelete s id).2 :=
  { attTriples := h.attTriples.sublist (List.filter_sublist _)
    bondParent := h.bondParent
    attBondParent := refAll_child_filter h.attBondParent _
    attAttesterParent := refAll_child_filter h.attAttesterParent _
    attSubjectParent := refAll_child_filter h.attSubjectParent _
    slashBondParent := h.slashBondParent
    historyParent := h.historyParent
    bondIdsBelow := h.bondIdsBelow
    bondIdsDistinct := h.bondIdsDistinct }

theorem wf_slashEventsDelete (s : Store) (id : Nat) (h : StoreWF s) :
    StoreWF (slashEventsDelete s id).2 :=
  { attTriples := h.attTriples
    bondParent := h.bondParent
    attBondParent := h.attBondParent
    attAttesterParent := h.attAttesterParent
    attSubjectParent := h.attSubjectParent
    slashBondParent := refAll_child_filter h.slashBondParent _
    historyParent := h.historyParent
    bondIdsBelow := h.bondIdsBelow
    bondIdsDistinct := h.bondIdsDistinct }

theorem wf_scoreHistoryDelete (s : Store) (id : Nat) (h : StoreWF s) :
    StoreWF (scoreHistoryDelete s id).2 :=
  { attTriples := h.attTriples
    bondParent := h.bondParent
    attBondParent := h.attBondParent
    attAttesterParent := h.attAttesterParent
    attSubjectParent := h.attSubjectParent
    slashBondParent := h.slashBondParent
    historyParent := refAll_child_filter h.historyParent _
    bondIdsBelow := h.bondIdsBelow
    bondIdsDistinct := h.bondIdsDistinct }

theorem wf_slashEventsCreate (s : Store) (bondId : Nat) (amount : Int)
    (reason : String) (now : Int) (r : SlashEventRow) (s2 : Store) (h : StoreWF s)
    (hc : slashEventsCreate s bondId amount reason now = .ok (r, s2)) : StoreWF s2 := by
  unfold slashEventsCreate at hc
  split at hc
  · simp at hc
  split at hc
  · simp at hc
  split at hc
  · simp at hc
  next hbond =>
  have hbond2 : ∃ b ∈ s.bonds, b.id = bondId := by
    have : s.bonds.any (fun b => b.id == bondId) = true := by simpa using hbond
    simpa using this
  simp only [Except.ok.injEq, Prod.mk.injEq] at hc
  obtain ⟨-, hs⟩ := hc
  subst hs
  refine {
    attTriples := h.attTriples
    bondParent := h.bondParent
    attBondParent := h.attBondParent
    attAttesterParent := h.attAttesterParent
    attSubjectParent := h.attSubjectParent
    slashBondParent := ?_
    historyParent := h.historyParent
    bondIdsBelow := h.bondIdsBelow
    bondIdsDistinct := h.bondIdsDistinct }
  intro e he
  rcases List.mem_append.mp he with he | he
  · exact h.slashBondParent e he
  · rw [List.mem_singleton] at he
    subst he
    exact hbond2

theorem wf_scoreHistoryCreate (s : Store) (addr : String) (score : Int)
    (source : ScoreSource) (computedAt : Option Int) (now : Int)
    (r : ScoreHistoryRow) (s2 : Store) (h : StoreWF s)
    (hc : scoreHistoryCreate s addr score source computedAt now = .ok (r, s2)) :
    StoreWF s2 := by
  unfold scoreHistoryCreate at hc
  split at hc
  · simp at hc
  split at hc
  · simp at hc
  next hid =>
  have hid2 : ∃ i ∈ s.identities, i.address = addr := by
    have : s.identities.any (fun i => i.address == addr) = true := by simpa using hid
    simpa using this
  simp only [Except.ok.injEq, Prod.mk.injEq] at hc
  obtain ⟨-, hs⟩ := hc
  subst hs
  refine {
    attTriples := h.attTriples
    bondParent := h.bondParent
    attBondParent := h.attBondParent
    attAttesterParent := h.attAttesterParent
    attSubjectParent := h.attSubjectParent
    slashBondParent := h.slashBondParent
    historyParent := ?_
    bondIdsBelow := h.bondIdsBelow
    bondIdsDistinct := h.bondIdsDistinct }
  intro e he
  rcases List.mem_append.mp he with he | he
  · exact h.historyParent e he
  · rw [List.mem_singleton] at he
    subst he
    exact hid2

theorem contains_false_not_mem {α : Type} [BEq α] [LawfulBEq α] (l : List α) (a : α)
    (h : l.contains a = false) : ¬ a ∈ l := by
  intro hm
  have h2 : List.elem a l = false := h
  have h3 := List.elem_iff.mpr hm
  rw [h2] at h3
  simp at h3

theorem wf_identitiesDelete (s : Store) (addr : String) (h : StoreWF s) :
    StoreWF (identitiesDelete s addr).2 := by
  simp only [identitiesDelete]
  refine {
    attTriples := h.attTriples.sublist (List.filter_sublist _)
    bondParent := ?_
    attBondParent := ?_
    attAttesterParent := ?_
    attSubjectParent := ?_
    slashBondParent := ?_
    historyParent := ?_
    bondIdsBelow := fun b hb => h.bondIdsBelow b (List.mem_filter.mp hb).1
    bondIdsDistinct := h.bondIdsDistinct.sublist (List.filter_sublist _) }
  · intro b hb
    rw [List.mem_filter] at hb
    obtain ⟨hb1, hb2⟩ := hb
    obtain ⟨i, hi, hieq⟩ := h.bondParent b hb1
    refine ⟨i, List.mem_filter.mpr ⟨hi, ?_⟩, hieq⟩
    simp at hb2 ⊢
    rw [hieq]
    exact hb2
  · intro a ha
    rw [List.mem_filter] at ha
    obtain ⟨ha1, ha2⟩ := ha
    simp only [Bool.not_eq_true', Bool.or_eq_false_iff] at ha2
    obtain ⟨⟨hmem, _⟩, _⟩ := ha2
    obtain ⟨b, hb, hbid⟩ := h.attBondParent a ha1
    refine ⟨b, List.mem_filter.mpr ⟨hb, ?_⟩, hbid⟩
    simp
    intro hbad
    have : a.bondId ∈ (s.bonds.filter
        (fun b => b.identityAddress == addr)).map (fun b => b.id) := by
      rw [← hbid]
      exact List.mem_map_of_mem _ (List.mem_filter.mpr ⟨hb, by simp [hbad]⟩)
    exact contains_false_not_mem _ _ hmem this
  · intro a ha
    rw [List.mem_filter] at ha
    obtain ⟨ha1, ha2⟩ := ha
    simp only [Bool.not_eq_true', Bool.or_eq_false_iff] at ha2
    obtain ⟨⟨_, hatt⟩, _⟩ := ha2
    obtain ⟨i, hi, hieq⟩ := h.attAttesterParent a ha1
    refine ⟨i, List.mem_filter.mpr ⟨hi, ?_⟩, hieq⟩
    simp at hatt ⊢
    rw [hieq]
    exact hatt
  · intro a ha
    rw [List.mem_filter] at ha
    obtain ⟨ha1, ha2⟩ := ha
    simp only [Bool.not_eq_true', Bool.or_eq_false_iff] at ha2
    obtain ⟨⟨_, _⟩, hsub⟩ := ha2
    obtain ⟨i, hi, hieq⟩ := h.attSubjectParent a ha1
    refine ⟨i, List.mem_filter.mpr ⟨hi, ?_⟩, hieq⟩
    simp at hsub ⊢
    rw [hieq]
    exact hsub
  · intro e he
    rw [List.mem_filter] at he
    obtain ⟨he1, he2⟩ := he
    simp only [Bool.not_eq_true'] at he2
    obtain ⟨b, hb, hbid⟩ := h.slashBondParent e he1
    refine ⟨b, List.mem_filter.mpr ⟨hb, ?_⟩, hbid⟩
    simp
    intro hbad
    have : e.bondId ∈ (s.bonds.filter
        (fun b => b.identityAddress == addr)).map (fun b => b.id) := by
      rw [← hbid]
      exact List.mem_map_of_mem _ (List.mem_filter.mpr ⟨hb, by simp [hbad]⟩)
    exact contains_false_not_mem _ _ he2 this
  · intro e he
    rw [List.mem_filter] at he
    obtain ⟨he1, he2⟩ := he
    obtain ⟨i, hi, hieq⟩ := h.historyParent e he1
    refine ⟨i, List.mem_filter.mpr ⟨hi, ?_⟩, hieq⟩
    simp at he2 ⊢
    rw [hieq]
    exact he2

theorem wf_empty : StoreWF emptyStore := by
  constructor <;> simp [emptyStore]

/-- Every reachable store satisfies the schema invariants. -/
theorem reachable_wf (s : Store) (h : Reachable s) : StoreWF s := by
  induction h with
  | empty => exact wf_empty
  | identityCreate s1 addr dn now _ ih =>
    rcases hc : identitiesCreate s1 addr dn now with e | pr
    · simpa [applyOk, hc] using ih
    · obtain ⟨r, s2⟩ := pr
      exact wf_identitiesCreate s1 addr dn now r s2 ih hc
  | identityUpdate s1 addr dn now _ ih => exact wf_identitiesUpdate s1 addr dn now ih
  | identityDelete s1 addr _ ih => exact wf_identitiesDelete s1 addr ih
  | bondCreate s1 addr amount startTime durationDays status now _ ih =>
    rcases hc : bondsCreate s1 addr amount startTime durationDays status now with e | pr
    · simpa [applyOk, hc] using ih
    · obtain ⟨r, s2⟩ := pr
      exact wf_bondsCreate s1 addr amount startTime durationDays status now r s2 ih hc
  | bondUpdateStatus s1 id status _ ih => exact wf_bondsUpdateStatus s1 id status ih
  | bondDelete s1 id _ ih => exact wf_bondsDelete s1 id ih
  | attestationCreate s1 bondId attester subject score note now _ ih =>
    rcases hc : attestationsCreate s1 bondId attester subject score note now with e | pr
    · simpa [applyOk, hc] using ih
    · obtain ⟨r, s2⟩ := pr
      exact wf_attestationsCreate s1 bondId attester subject score note now r s2 ih hc
  | attestationUpdateScore s1 id score res s2 _ hc ih =>
    exact wf_attestationsUpdateScore s1 id score res s2 ih hc
  | attestationDelete s1 id _ ih => exact wf_attestationsDelete s1 id ih
  | slashEventCreate s1 bondId amount reason now _ ih =>
    rcases hc : slashEventsCreate s1 bondId amount reason now with e | pr
    · simpa [applyOk, hc] using ih
    · obtain ⟨r, s2⟩ := pr
      exact wf_slashEventsCreate s1 bondId amount reason now r s2 ih hc
  | slashEventDelete s1 id _ ih => exact wf_slashEventsDelete s1 id ih
  | historyCreate s1 addr score source computedAt now _ ih =>
    rcases hc : scoreHistoryCreate s1 addr score source computedAt now with e | pr
    · simpa [applyOk, hc] using ih
    · obtain ⟨r, s2⟩ := pr
      exact wf_scoreHistoryCreate s1 addr score source computedAt now r s2 ih hc
  | historyDelete s1 id _ ih => exact wf_scoreHistoryDelete s1 id ih
  | reset s1 _ _ => exact wf_empty

theorem cascadeS6_reachable : Reachable cascadeS6 :=
  Reachable.attestationCreate cascadeS5 1 "X" "Y" 70 none 2
    (Reachable.bondCreate cascadeS4 "GCASCADE_OWNER" 125000000 0 30 none 1
      (Reachable.identityCreate cascadeS3 "Z" none 0
        (Reachable.identityCreate cascadeS2 "Y" none 0
          (Reachable.identityCreate cascadeS1 "X" none 0
            (Reachable.identityCreate emptyStore "GCASCADE_OWNER" none 0
              Reachable.empty)))))

theorem cascadeS8_reachable : Reachable cascadeS8 :=
  Reachable.historyCreate cascadeS7 "GCASCADE_OWNER" 80 .manual none 4
    (Reachable.slashEventCreate cascadeS6 1 25000000 "first penalty" 3
      cascadeS6_reachable)

/-- C4: in every reachable store no two attestation rows share the triple
(bondId, attesterAddress, subjectAddress); creating a second attestation with
the triple of an existing one fails with a duplicate-key violation (for any
in-range score), while creating one whose triple is new succeeds whenever its
parents exist and its score is in range. -/
theorem attestation_triple_unique (s : Store) (hs : Reachable s) :
    s.attestations.Pairwise (fun a b => ¬ sameTriple a b) ∧
    (∀ (bondId : Nat) (attester subject : String) (score : Int)
        (note : Option String) (now : Int),
      (∃ a ∈ s.attestations, a.bondId = bondId ∧ a.attesterAddress = attester ∧
        a.subjectAddress = subject) →
      0 ≤ score → score ≤ 100 →
      attestationsCreate s bondId attester subject score note now =
        .error .duplicateKey) ∧
    (∀ (bondId : Nat) (attester subject : String) (score : Int)
        (note : Option String) (now : Int),
      (∀ a ∈ s.attestations, ¬ (a.bondId = bondId ∧ a.attesterAddress = attester ∧
        a.subjectAddress = subject)) →
      (∃ b ∈ s.bonds, b.id = bondId) →
      (∃ i ∈ s.identities, i.address = attester) →
      (∃ i ∈ s.identities, i.address = subject) →
      0 ≤ score → score ≤ 100 →
      ∃ r s2, attestationsCreate s bondId attester subject score note now =
        .ok (r, s2)) := by
  have hwf := reachable_wf s hs
  refine ⟨hwf.attTriples, ?_, ?_⟩
  · intro bondId attester subject score note now hex h0 h100
    obtain ⟨a, ha, h1, h2, h3⟩ := hex
    have hb : s.bonds.any (fun b => b.id == bondId) = true := by
      obtain ⟨b, hbmem, hbid⟩ := hwf.attBondParent a ha
      rw [List.any_eq_true]
      exact ⟨b, hbmem, by simp [hbid, h1]⟩
    have hatt : s.identities.any (fun i => i.address == attester) = true := by
      obtain ⟨i, himem, hieq⟩ := hwf.attAttesterParent a ha
      rw [List.any_eq_true]
      exact ⟨i, himem, by simp [hieq, h2]⟩
    have hsub : s.identities.any (fun i => i.address == subject) = true := by
      obtain ⟨i, himem, hieq⟩ := hwf.attSubjectParent a ha
      rw [List.any_eq_true]
      exact ⟨i, himem, by simp [hieq, h3]⟩
    have hdup : s.attestations.any (fun x =>
        x.bondId == bondId && x.attesterAddress == attester
          && x.subjectAddress == subject) = true := by
      rw [List.any_eq_true]
      exact ⟨a, ha, by simp [h1, h2, h3]⟩
    simp [attestationsCreate, hb, hatt, hsub, hdup, h0, h100]
  · intro bondId attester subject score note now hnodup hbond hatte hsubj h0 h100
    have hb : s.bonds.any (fun b => b.id == bondId) = true := by
      obtain ⟨b, hbmem, hbid⟩ := hbond
      rw [List.any_eq_true]
      exact ⟨b, hbmem, by simp [hbid]⟩
    have hatt : s.identities.any (fun i => i.address == attester) = true := by
      obtain ⟨i, himem, hieq⟩ := hatte
      rw [List.any_eq_true]
      exact ⟨i, himem, by simp [hieq]⟩
    have hsub : s.identities.any (fun i => i.address == subject) = true := by
      obtain ⟨i, himem, hieq⟩ := hsubj
      rw [List.any_eq_true]
      exact ⟨i, himem, by simp [hieq]⟩
    have hdup : s.attestations.any (fun x =>
        x.bondId == bondId && x.attesterAddress == attester
          && x.subjectAddress == subject) = false := by
      rw [List.any_eq_false]
      intro x hx hcon
      simp only [Bool.and_eq_true, beq_iff_eq] at hcon
      exact hnodup x hx ⟨hcon.1.1, hcon.1.2, hcon.2⟩
    rcases hres : attestationsCreate s bondId attester subject score note now with e | pr
    · exfalso
      simp [attestationsCreate, hb, hatt, hsub, hdup, h0, h100] at hres
    · exact ⟨pr.1, pr.2, by rw [← hres]⟩

theorem attestation_triple_unique_witness :
    attestationsCreate cascadeS6 1 "X" "Y" 75 none 5 = .error .duplicateKey ∧
    (attestationsCreate cascadeS6 1 "X" "Z" 80 none 5).isOk = true := by
  have h := attestation_triple_unique cascadeS6 cascadeS6_reachable
  refine ⟨h.2.1 1 "X" "Y" 75 none 5 (by decide) (by decide) (by decide), ?_⟩
  obtain ⟨r, s2, heq⟩ := h.2.2 1 "X" "Z" 80 none 5 (by decide) (by decide)
    (by decide) (by decide) (by decide) (by decide)
  rw [heq]
  rfl

/-- C5: in every reachable store every child row has its parents present
(bonds point to identities; attestations to a bond, an attester and a
subject; slash events to a bond; history entries to an identity); deleting
an identity removes it together with its bonds, the attestations and slash
events of those bonds, and its score history, so the corresponding lookups
and listings return none or an empty list; deleting a bond removes the bond
with its attestations and slash events. -/
theorem referential_integrity_cascade (s : Store) (hs : Reachable s) :
    (∀ b ∈ s.bonds, ∃ i ∈ s.identities, i.address = b.identityAddress) ∧
    (∀ a ∈ s.attestations,
      (∃ b ∈ s.bonds, b.id = a.bondId) ∧
      (∃ i ∈ s.identities, i.address = a.attesterAddress) ∧
      (∃ i ∈ s.identities, i.address = a.subjectAddress)) ∧
    (∀ e ∈ s.slashEvents, ∃ b ∈ s.bonds, b.id = e.bondId) ∧
    (∀ h ∈ s.scoreHistory, ∃ i ∈ s.identities, i.address = h.identityAddress) ∧
    (∀ addr : String,
      identitiesFindByAddress (identitiesDelete s addr).2 addr = none ∧
      bondsListByIdentity (identitiesDelete s addr).2 addr = [] ∧
      scoreHistoryListByIdentity (identitiesDelete s addr).2 addr = [] ∧
      (∀ b ∈ s.bonds, b.identityAddress = addr →
        bondsFindById (identitiesDelete s addr).2 b.id = none ∧
        attestationsListByBond (identitiesDelete s addr).2 b.id = [] ∧
        slashEventsListByBond (identitiesDelete s addr).2 b.id = [])) ∧
    (∀ bid : Nat,
      bondsFindById (bondsDelete s bid).2 bid = none ∧
      attestationsListByBond (bondsDelete s bid).2 bid = [] ∧
      slashEventsListByBond (bondsDelete s bid).2 bid = []) := by
  have hwf := reachable_wf s hs
  refine ⟨hwf.bondParent,
    fun a ha => ⟨hwf.attBondParent a ha, hwf.attAttesterParent a ha,
      hwf.attSubjectParent a ha⟩,
    hwf.slashBondParent, hwf.historyParent, ?_, ?_⟩
  · intro addr
    refine ⟨?_, ?_, ?_, ?_⟩
    · rw [identitiesFindByAddress, List.find?_eq_none]
      intro i hi
      simp only [identitiesDelete] at hi
      rw [List.mem_filter] at hi
      simpa using hi.2
    · rw [bondsListByIdentity]
      apply sqlSelect_nil
      intro b hb
      simp only [identitiesDelete] at hb
      rw [List.mem_filter] at hb
      simpa using hb.2
    · rw [scoreHistoryListByIdentity]
      apply sqlSelect_nil
      intro e he
      simp only [identitiesDelete] at he
      rw [List.mem_filter] at he
      simpa using he.2
    · intro b hb hbaddr
      refine ⟨?_, ?_, ?_⟩
      · rw [bondsFindById, List.find?_eq_none]
        intro x hx
        simp only [identitiesDelete] at hx
        rw [List.mem_filter] at hx
        obtain ⟨hx1, hx2⟩ := hx
        have hxb : x ≠ b := by
          intro heq
          subst heq
          simp [hbaddr] at hx2
        have hsymm : Symmetric (fun a b : BondRow => ¬ a.id = b.id) :=
          fun a b hab => fun h2 => hab h2.symm
        have := hwf.bondIdsDistinct.forall hsymm hx1 hb hxb
        simpa using this
      · rw [attestationsListByBond]
        apply sqlSelect_nil
        intro a ha
        simp only [identitiesDelete] at ha
        rw [List.mem_filter] at ha
        obtain ⟨ha1, ha2⟩ := ha
        simp only [Bool.not_eq_true', Bool.or_eq_false_iff] at ha2
        obtain ⟨⟨hmem, _⟩, _⟩ := ha2
        simp only [beq_iff_eq]
        intro hcon
        apply contains_false_not_mem _ _ hmem
        rw [hcon]
        exact List.mem_map_of_mem _ (List.mem_filter.mpr ⟨hb, by simp [hbaddr]⟩)
      · rw [slashEventsListByBond]
        apply sqlSelect_nil
        intro e he
        simp only [identitiesDelete] at he
        rw [List.mem_filter] at he
        obtain ⟨he1, he2⟩ := he
        simp only [Bool.not_eq_true'] at he2
        simp only [beq_iff_eq]
        intro hcon
        apply contains_false_not_mem _ _ he2
        rw [hcon]
        exact List.mem_map_of_mem _ (List.mem_filter.mpr ⟨hb, by simp [hbaddr]⟩)
  · intro bid
    refine ⟨?_, ?_, ?_⟩
    · rw [bondsFindById, List.find?_eq_none]
      intro x hx
      simp only [bondsDelete] at hx
      rw [List.mem_filter] at hx
      simpa using hx.2
    · rw [attestationsListByBond]
      apply sqlSelect_nil
      intro a ha
      simp only [bondsDelete] at ha
      rw [List.mem_filter] at ha
      simpa using ha.2
    · rw [slashEventsListByBond]
      apply sqlSelect_nil
      intro e he
      simp only [bondsDelete] at he
      rw [List.mem_filter] at he
      simpa using he.2

theorem referential_integrity_cascade_witness :
    bondsListByIdentity (identitiesDelete cascadeS8 "GCASCADE_OWNER").2
      "GCASCADE_OWNER" = [] ∧
    scoreHistoryListByIdentity (identitiesDelete cascadeS8 "GCASCADE_OWNER").2
      "GCASCADE_OWNER" = [] ∧
    bondsFindById (identitiesDelete cascadeS8 "GCASCADE_OWNER").2 1 = none ∧
    attestationsListByBond (identitiesDelete cascadeS8 "GCASCADE_OWNER").2 1 = [] ∧
    slashEventsListByBond (identitiesDelete cascadeS8 "GCASCADE_OWNER").2 1 = [] := by
  have h := referential_integrity_cascade cascadeS8 cascadeS8_reachable
  have h5 := h.2.2.2.2.1 "GCASCADE_OWNER"
  have hbond := h5.2.2.2
    { id := 1, identityAddress := "GCASCADE_OWNER", amount := 125000000,
      startTime := 0, durationDays := 30, status := .active, createdAt := 1 }
    (by decide) (by decide)
  exact ⟨h5.2.1, h5.2.2.1, hbond.1, hbond.2.1, hbond.2.2⟩
